import Mathlib

/-!
Verification of the migration subsystem of the pocketbase-mcp repository.

The repository exposes MCP tools over a PocketBase backend. The tool
handlers live in `src/tools/collection-tools.ts` and the server dispatch
wrapper in `src/server/pocketbase-server.ts`. The handlers call into a
`src/migrations` module (naming engine, content generators, directory
resolver, migration store, lifecycle executor) whose source file is not
part of the available sources; those operations are modelled from the
specification, as marked on each definition.

Effectful TypeScript code is embedded by explicit state passing:
directory listings are passed as `List String`, per-file `up`/`down`
execution outcomes as a `String → Bool` oracle, thrown errors as
`Except`, and file-system writes as an explicit effect list.
-/

namespace PocketbaseMcp

/-- Error values thrown by the tool layer. `invalidParams` corresponds to
`invalidParamsError` from `src/server/error-handler.ts`; `genericError`
corresponds to a plain `new Error(message)`. -/
inductive McpError where
  | invalidParams (message : String)
  | genericError (message : String)
deriving DecidableEq, Repr

/-- Modelled from the spec: `invalidParamsError` of the missing
`src/server/error-handler.ts` constructs an invalid-argument error
(`InvalidArgumentError` in the spec's terminology). -/
def invalidParamsError (message : String) : McpError :=
  .invalidParams message

/-- Result of a tool call: a list of text content blocks, mirroring the
`ToolResult` shape `{ content: [{ type: 'text', text }] }`. -/
structure ToolResult where
  content : List String
deriving DecidableEq, Repr

/-- Builds the single-text-block result used by every handler. -/
def textResult (text : String) : ToolResult :=
  { content := [text] }

/-- Errors of the migration lifecycle executor (spec §7): a referenced
migration file absent from the active directory, or a failure of an
`up`/`down` operation, recording the offending file and the names already
processed earlier in the batch. -/
inductive MigrationError where
  | notFoundError (fileName : String)
  | executionError (fileName : String) (alreadyProcessed : List String)
deriving DecidableEq, Repr

/-- Message text carried by a migration error. -/
def MigrationError.message : MigrationError → String
  | .notFoundError fileName => "Migration file not found: " ++ fileName
  | .executionError fileName _ => "Migration failed: " ++ fileName

/-- The migration file extension used by the store. -/
def migrationExt : String := ".js"

/-- The ordering key embedded in a migration file name: the prefix of the
name before the first underscore (file names are `{orderingKey}_{slug}.{ext}`). -/
def orderingKey (fileName : String) : String :=
  String.mk (fileName.data.takeWhile (· ≠ '_'))

/-- Whether a directory entry carries the migration file extension. -/
def hasMigrationExt (f : String) : Bool :=
  migrationExt.data.isSuffixOf f.data

/-- Executable strict lexicographic comparison of character lists: the
kernel-reducible counterpart of the lexicographic order underlying
`String` comparison (the built-in `String.ltb` is iterator-based and does
not reduce in the kernel). -/
def lexLtB : List Char → List Char → Bool
  | [], [] => false
  | [], _ :: _ => true
  | _ :: _, [] => false
  | a :: as, b :: bs =>
    if a < b then true
    else if b < a then false
    else lexLtB as bs

/-- `lexLtB` decides the lexicographic order on character lists. -/
theorem lexLtB_iff_lex : ∀ as bs : List Char,
    lexLtB as bs = true ↔ List.Lex (· < ·) as bs
  | [], [] => by
    refine iff_of_false (by simp [lexLtB]) (fun h => ?_)
    cases h
  | [], _ :: _ => by
    constructor
    · intro _
      exact List.Lex.nil
    · intro _
      rfl
  | a :: as, [] => by
    refine iff_of_false (by simp [lexLtB]) (fun h => ?_)
    cases h
  | a :: as, b :: bs => by
    simp only [lexLtB]
    by_cases h1 : a < b
    · rw [if_pos h1]
      exact iff_of_true rfl (List.Lex.rel h1)
    · rw [if_neg h1]
      by_cases h2 : b < a
      · rw [if_pos h2]
        refine iff_of_false (by simp) (fun h => ?_)
        cases h with
        | cons htl => exact absurd h2 (lt_irrefl a)
        | rel hab => exact absurd hab h1
      · simp only [if_neg h2]
        have hab : a = b := le_antisymm (not_lt.mp h2) (not_lt.mp h1)
        subst hab
        rw [lexLtB_iff_lex as bs]
        constructor
        · exact fun h => List.Lex.cons h
        · intro h
          cases h with
          | cons htl => exact htl
          | rel hab => exact absurd hab (lt_irrefl a)

/-- `String` strict comparison is `lexLtB` on the underlying characters. -/
theorem string_lt_iff_lexLtB (s t : String) :
    s < t ↔ lexLtB s.data t.data = true := by
  rw [String.lt_iff_toList_lt]
  exact Iff.symm (lexLtB_iff_lex s.data t.data)

/-- `String` comparison is the negation of flipped `lexLtB`. -/
theorem string_le_iff_lexLtB (s t : String) :
    s ≤ t ↔ lexLtB t.data s.data = false := by
  rw [← not_lt, string_lt_iff_lexLtB, Bool.not_eq_true]

/-- Kernel-reducible decidability of `String` strict comparison. -/
instance stringDecLt (s t : String) : Decidable (s < t) :=
  decidable_of_iff (lexLtB s.data t.data = true) (string_lt_iff_lexLtB s t).symm

/-- Kernel-reducible decidability of `String` comparison. -/
instance stringDecLe (s t : String) : Decidable (s ≤ t) :=
  decidable_of_iff (lexLtB t.data s.data = false) (string_le_iff_lexLtB s t).symm

/-- Ascending comparison of two file names by embedded ordering key. -/
def keyLE (a b : String) : Prop := orderingKey a ≤ orderingKey b

/-- Descending comparison of two file names by embedded ordering key. -/
def keyGE (a b : String) : Prop := orderingKey b ≤ orderingKey a

/-- Strict ascending comparison by embedded ordering key. -/
def keyLT (a b : String) : Prop := orderingKey a < orderingKey b

instance : DecidableRel keyLE := fun a b =>
  inferInstanceAs (Decidable (orderingKey a ≤ orderingKey b))

instance : DecidableRel keyGE := fun a b =>
  inferInstanceAs (Decidable (orderingKey b ≤ orderingKey a))

instance : DecidableRel keyLT := fun a b =>
  inferInstanceAs (Decidable (orderingKey a < orderingKey b))

instance : IsTotal String keyLE := ⟨fun a b => le_total _ _⟩

instance : IsTrans String keyLE := ⟨fun _ _ _ => le_trans⟩

instance : IsTotal String keyGE := ⟨fun a b => le_total _ _⟩

instance : IsTrans String keyGE := ⟨fun _ _ _ h1 h2 => le_trans h2 h1⟩

instance : IsAntisymm String keyLT := ⟨fun _ _ h1 h2 => absurd h2 (lt_asymm h1)⟩

instance : IsAntisymm String (fun a b => keyLT b a) := ⟨fun _ _ h1 h2 => absurd h2 (lt_asymm h1)⟩

/-- Modelled from the spec: Migration Store `list()` of the missing
`src/migrations` module — reads all entries of the active directory
matching the migration file extension and sorts them by embedded ordering
key ascending, returning file names only. The directory listing is passed
in as `entries`. -/
def listMigrations (entries : List String) : List String :=
  List.insertionSort keyLE (entries.filter hasMigrationExt)

/-- Modelled from the spec: the sequential batch runner shared by
`applyAll` and `revertToMigration` of the missing `src/migrations` module.
It processes the given files in list order; `exec` reports whether the
file's `up`/`down` operation succeeded against the backend. On the first
failure the whole call fails with an execution error naming the offending
file and the names already processed; otherwise it returns the names
processed, in order. `acc` accumulates processed names in reverse. -/
def runBatch (exec : String → Bool) : List String → List String →
    Except MigrationError (List String)
  | [], acc => .ok acc.reverse
  | f :: fs, acc =>
    if exec f then runBatch exec fs (f :: acc)
    else .error (.executionError f acc.reverse)

/-- The pending migrations of `applyAll`: the sorted directory listing
minus the caller-supplied applied set, preserving ascending order. -/
def pendingMigrations (entries applied : List String) : List String :=
  (listMigrations entries).filter (fun f => !(applied.contains f))

/-- Modelled from the spec: `applyAll(backendHandle, appliedSet)` of the
missing `src/migrations` module — computes `pending = list() − appliedSet`
preserving ascending order, applies each in order via its `up` operation
(the `execUp` oracle), and returns the file names applied in that order. -/
def applyAllMigrations (execUp : String → Bool) (entries applied : List String) :
    Except MigrationError (List String) :=
  runBatch execUp (pendingMigrations entries applied) []

/-- The revert candidates of `revertToMigration`: members of the
caller-supplied applied set that exist in the directory listing, sorted
descending by embedded ordering key. -/
def revertCandidates (entries applied : List String) : List String :=
  List.insertionSort keyGE (applied.filter (fun f => (listMigrations entries).contains f))

/-- The files `revertToMigration` actually reverts: all candidates when
the target is the empty string, else only candidates whose ordering key is
strictly greater than the target's key (target exclusive). -/
def revertTargets (target : String) (entries applied : List String) : List String :=
  if target = "" then revertCandidates entries applied
  else (revertCandidates entries applied).filter
    (fun f => decide (orderingKey target < orderingKey f))

/-- Modelled from the spec: `revertToMigration(targetFileName, handle,
appliedSet)` of the missing `src/migrations` module — empty target means
revert everything in the applied set; a non-empty target absent from the
directory listing fails with `NotFoundError`; otherwise reverts, in strict
descending ordering-key order, every candidate strictly above the target
(target exclusive), via the `execDown` oracle. -/
def revertToMigration (execDown : String → Bool) (target : String)
    (entries applied : List String) : Except MigrationError (List String) :=
  if target = "" then
    runBatch execDown (revertTargets target entries applied) []
  else if (listMigrations entries).contains target then
    runBatch execDown (revertTargets target entries applied) []
  else
    .error (.notFoundError target)

/-- Modelled from the spec: `apply(fileName, backendHandle)` of the
missing `src/migrations` module — resolves `fileName` against the active
directory listing, fails with `NotFoundError` if absent, else invokes the
file's `up` operation and returns a confirmation referencing the name. -/
def applyMigration (execUp : String → Bool) (entries : List String)
    (fileName : String) : Except MigrationError String :=
  if entries.contains fileName then
    if execUp fileName then .ok ("Applied migration: " ++ fileName)
    else .error (.executionError fileName [])
  else
    .error (.notFoundError fileName)

/-- Modelled from the spec: `revert(fileName, backendHandle)` of the
missing `src/migrations` module — same resolution as `apply` but invokes
the file's `down` operation. -/
def revertMigration (execDown : String → Bool) (entries : List String)
    (fileName : String) : Except MigrationError String :=
  if entries.contains fileName then
    if execDown fileName then .ok ("Reverted migration: " ++ fileName)
    else .error (.executionError fileName [])
  else
    .error (.notFoundError fileName)

/-! Tool handlers, embedded from `src/tools/collection-tools.ts`. JavaScript
`throw` is embedded as `Except.error`; the `args.x || []` defaulting is
`Option.getD` (an explicitly supplied empty array is truthy in JavaScript
and passes through unchanged, so both sides agree on `[]`). -/

/-- Arguments of the `apply_all_migrations` tool. -/
structure ApplyAllMigrationsArgs where
  appliedMigrations : Option (List String)
deriving DecidableEq

/-- Arguments of the `revert_to_migration` tool. -/
structure RevertToMigrationArgs where
  targetMigration : String
  appliedMigrations : Option (List String)
deriving DecidableEq

/-- Arguments of the `apply_migration` / `revert_migration` tools. -/
structure ApplyMigrationArgs where
  migrationFile : String
deriving DecidableEq

/-- Embeds `handleApplyAllMigrations` (collection-tools.ts:310–327):
defaults an omitted `appliedMigrations` to `[]`, delegates to
`applyAllMigrations`, renders the result, and wraps any thrown error in
`new Error("Failed to apply migrations: " + message)`. -/
def handleApplyAllMigrations (execUp : String → Bool) (entries : List String)
    (args : ApplyAllMigrationsArgs) : Except McpError ToolResult :=
  let appliedMigrations := args.appliedMigrations.getD []
  match applyAllMigrations execUp entries appliedMigrations with
  | .error e => .error (.genericError ("Failed to apply migrations: " ++ e.message))
  | .ok result =>
    if result.length = 0 then
      .ok (textResult "No new migrations to apply.")
    else
      .ok (textResult ("Applied migrations:\n" ++ String.intercalate "\n" result))

/-- Embeds `handleRevertToMigration` (collection-tools.ts:329–350):
defaults an omitted `appliedMigrations` to `[]`, delegates to
`revertToMigration`, renders the result, and wraps any thrown error in
`new Error("Failed to revert migrations: " + message)`. -/
def handleRevertToMigration (execDown : String → Bool) (entries : List String)
    (args : RevertToMigrationArgs) : Except McpError ToolResult :=
  let appliedMigrations := args.appliedMigrations.getD []
  match revertToMigration execDown args.targetMigration entries appliedMigrations with
  | .error e => .error (.genericError ("Failed to revert migrations: " ++ e.message))
  | .ok result =>
    if result.length = 0 then
      .ok (textResult "No migrations to revert.")
    else
      .ok (textResult ("Reverted migrations:\n" ++ String.intercalate "\n" result))

/-- Embeds `handleApplyMigration` (collection-tools.ts:279–293): rejects a
falsy `migrationFile`, delegates to `applyMigration`, and wraps any thrown
error in `new Error("Failed to apply migration: " + message)`. -/
def handleApplyMigration (execUp : String → Bool) (entries : List String)
    (args : ApplyMigrationArgs) : Except McpError ToolResult :=
  if args.migrationFile = "" then
    .error (invalidParamsError "Missing required argument: migrationFile")
  else
    match applyMigration execUp entries args.migrationFile with
    | .error e => .error (.genericError ("Failed to apply migration: " ++ e.message))
    | .ok result => .ok (textResult result)

/-- Embeds `handleRevertMigration` (collection-tools.ts:295–308): rejects a
falsy `migrationFile`, delegates to `revertMigration`, and wraps any thrown
error in `new Error("Failed to revert migration: " + message)`. -/
def handleRevertMigration (execDown : String → Bool) (entries : List String)
    (args : ApplyMigrationArgs) : Except McpError ToolResult :=
  if args.migrationFile = "" then
    .error (invalidParamsError "Missing required argument: migrationFile")
  else
    match revertMigration execDown entries args.migrationFile with
    | .error e => .error (.genericError ("Failed to revert migration: " ++ e.message))
    | .ok result => .ok (textResult result)

/-! Migration creation handlers. File-system writes are modelled by an
explicit effect trace so that "writes no file" is a provable statement. -/

/-- A side effect at the storage boundary. -/
inductive Effect where
  | writeFile (fileName : String)
deriving DecidableEq, Repr

/-- JavaScript truthiness of a possibly-absent string property:
`undefined` and the empty string are falsy. -/
def jsTruthy : Option String → Bool
  | none => false
  | some s => !(s == "")

/-- A collection definition as passed to `create_collection_migration`:
only `name` and `id` are inspected by validation; the remaining properties
(fields, rules, …) are carried opaquely. -/
structure CollectionDefinition where
  name : Option String
  id : Option String
  rest : String
deriving DecidableEq

/-- A field definition as passed to `add_field_migration`: only `name`
and `type` are inspected by validation. -/
structure FieldDefinition where
  name : Option String
  type : Option String
  rest : String
deriving DecidableEq

/-- Arguments of the `create_collection_migration` tool. -/
structure CreateCollectionMigrationArgs where
  description : Option String
  collectionDefinition : Option CollectionDefinition
deriving DecidableEq

/-- Arguments of the `add_field_migration` tool. -/
structure AddFieldMigrationArgs where
  collectionNameOrId : String
  fieldDefinition : Option FieldDefinition
  description : Option String
deriving DecidableEq

/-- Modelled from the spec: `createCollectionMigration` of the missing
`src/migrations` module — derives a file name from the description (or the
kind-specific default) and writes the rendered migration body through the
storage capability, returning the file name and the write effect. -/
def createCollectionMigrationFile (cd : CollectionDefinition)
    (description : Option String) : String × List Effect :=
  let fileName := description.getD ("create_collection_" ++ cd.name.getD "") ++ migrationExt
  (fileName, [.writeFile fileName])

/-- Modelled from the spec: `createAddFieldMigration` of the missing
`src/migrations` module — same shape as `createCollectionMigrationFile`
with the add-field default description. -/
def createAddFieldMigrationFile (collectionNameOrId : String)
    (fd : FieldDefinition) (description : Option String) : String × List Effect :=
  let fileName := description.getD
    ("add_field_" ++ fd.name.getD "" ++ "_to_" ++ collectionNameOrId) ++ migrationExt
  (fileName, [.writeFile fileName])

/-- Embeds `handleCreateCollectionMigration` (collection-tools.ts:232–243):
validates that `collectionDefinition` is present and has truthy `name` and
`id` before calling the generator; a validation failure throws an
invalid-params error with no storage effect. -/
def handleCreateCollectionMigration (args : CreateCollectionMigrationArgs) :
    Except McpError ToolResult × List Effect :=
  match args.collectionDefinition with
  | none => (.error (invalidParamsError "Missing required argument: collectionDefinition"), [])
  | some cd =>
    if !(jsTruthy cd.name) || !(jsTruthy cd.id) then
      (.error (invalidParamsError "collectionDefinition must include name and id properties."), [])
    else
      let r := createCollectionMigrationFile cd args.description
      (.ok (textResult ("Created collection migration file: " ++ r.1)), r.2)

/-- Embeds `handleAddFieldMigration` (collection-tools.ts:245–260):
validates `collectionNameOrId` (truthy string) and `fieldDefinition`
(present, with truthy `name` and `type`) before calling the generator. -/
def handleAddFieldMigration (args : AddFieldMigrationArgs) :
    Except McpError ToolResult × List Effect :=
  if args.collectionNameOrId = "" then
    (.error (invalidParamsError "Missing required argument: collectionNameOrId"), [])
  else
    match args.fieldDefinition with
    | none => (.error (invalidParamsError "Missing required argument: fieldDefinition"), [])
    | some fd =>
      if !(jsTruthy fd.name) || !(jsTruthy fd.type) then
        (.error (invalidParamsError "fieldDefinition must include name and type properties."), [])
      else
        let r := createAddFieldMigrationFile args.collectionNameOrId fd args.description
        (.ok (textResult ("Created field migration file: " ++ r.1)), r.2)

/-! Directory Resolver, modelled from the spec (§4.3); the file system is
embedded as the list of directories known to exist. -/

/-- Process-wide directory-resolver state: the active migration directory
and the set of directories that exist on disk. -/
structure DirectoryState where
  activeDir : String
  existingDirs : List String
deriving DecidableEq

/-- A path is absolute when it starts with the path separator. -/
def isAbsolutePath (p : String) : Bool :=
  p.data.head? == some '/'

/-- Modelled from the spec: normalization of a custom path to an absolute
path against the current working directory. -/
def normalizeToAbsolute (cwd p : String) : String :=
  if isAbsolutePath p then p else cwd ++ "/" ++ p

/-- The default migration directory, `<cwd>/pb_migrations`. -/
def defaultMigrationsDir (cwd : String) : String :=
  cwd ++ "/pb_migrations"

/-- Ensures a directory exists: creates it only when missing. -/
def ensureDirectoryExists (dirs : List String) (d : String) : List String :=
  if dirs.contains d then dirs else d :: dirs

/-- Modelled from the spec: `set(customPath?)` of the Directory Resolver
in the missing `src/migrations` module — stores the normalized custom path
(or resets to the default), ensures the directory exists, and returns the
resolved path. -/
def setMigrationsDirectory (cwd : String) (customPath : Option String)
    (s : DirectoryState) : String × DirectoryState :=
  let dir := match customPath with
    | some p => normalizeToAbsolute cwd p
    | none => defaultMigrationsDir cwd
  (dir, { activeDir := dir, existingDirs := ensureDirectoryExists s.existingDirs dir })

/-! Naming Engine, modelled from the spec (§4.1). Time is an epoch count
in milliseconds; the engine's internal state remembers the last issued key
so that a non-advancing clock still yields a strictly larger key. -/

/-- Internal naming-engine state: the last ordering key issued in this
process. -/
structure NamingState where
  lastKey : Nat
deriving DecidableEq

/-- Modelled from the spec: the Naming Engine derives the next ordering
key from the current instant, tie-breaking monotonically when the clock
has not advanced past the last issued key. -/
def nextOrderingKey (now : Nat) (s : NamingState) : Nat × NamingState :=
  if now ≤ s.lastKey then (s.lastKey + 1, ⟨s.lastKey + 1⟩)
  else (now, ⟨now⟩)

/-- Digit width of the rendered ordering key (millisecond epoch counts). -/
def keyWidth : Nat := 13

/-- The `w` decimal digits of `n`, most significant first. -/
def natToDigits : Nat → Nat → List Char
  | 0, _ => []
  | w + 1, n => Nat.digitChar (n / 10 ^ w % 10) :: natToDigits w (n % 10 ^ w)

/-- The rendered ordering key: a fixed-width decimal string. -/
def orderingKeyText (k : Nat) : String :=
  String.mk (natToDigits keyWidth k)

/-- The migration file name built from an ordering key and a slug. -/
def migrationFileName (k : Nat) (slug : String) : String :=
  orderingKeyText k ++ "_" ++ slug ++ migrationExt

/-! Server dispatch wrapper, embedded from
`src/server/pocketbase-server.ts`. -/

/-- Modelled from the spec: `formatError` of the missing
`src/server/error-handler.ts` — renders any thrown error as a tool result
carrying the error context (spec §7: all errors surface to the caller,
nothing is silently swallowed). -/
def formatError (e : McpError) : ToolResult :=
  match e with
  | .invalidParams m => textResult ("Error: " ++ m)
  | .genericError m => textResult ("Error: " ++ m)

/-- Embeds the registered per-tool callback of `setupRequestHandlers`
(pocketbase-server.ts:49–64): it awaits `handleToolCall` on the tool's
name and arguments and catches every thrown error, returning
`formatError error` instead of propagating. `dispatch` stands for
`handleToolCall` (`src/tools/index.ts` is not among the sources); a
throwing dispatch is a dispatch returning `Except.error`. -/
def toolCallback {α : Type} (dispatch : String → α → Except McpError ToolResult)
    (toolName : String) (param : α) : ToolResult :=
  match dispatch toolName param with
  | .ok result => result
  | .error e => formatError e

/-! Helper lemmas. -/

/-- When every file in the batch executes successfully, the batch runner
succeeds and returns the accumulated names followed by the batch, in
order. -/
theorem runBatch_ok_of_all_success (exec : String → Bool) :
    ∀ (l acc : List String), (∀ f ∈ l, exec f = true) →
      runBatch exec l acc = .ok (acc.reverse ++ l)
  | [], acc, _ => by simp [runBatch]
  | f :: fs, acc, h => by
    have hf : exec f = true := h f (List.mem_cons_self f fs)
    have ih := runBatch_ok_of_all_success exec fs (f :: acc)
      (fun g hg => h g (List.mem_cons_of_mem f hg))
    simp [runBatch, hf, ih]

/-- The directory listing is sorted ascending by embedded ordering key. -/
theorem sorted_listMigrations (entries : List String) :
    List.Sorted keyLE (listMigrations entries) :=
  List.sorted_insertionSort keyLE _

/-- The directory listing is a permutation of the entries carrying the
migration extension. -/
theorem perm_listMigrations (entries : List String) :
    (listMigrations entries).Perm (entries.filter hasMigrationExt) :=
  List.perm_insertionSort keyLE _

/-! Claim theorems. -/

/-- C1: for every caller-supplied applied set, `applyAllMigrations`
computes the pending migrations as the directory listing minus the
applied set, applies each pending migration in ascending ordering-key
order, and returns exactly the file names applied in that order; when
nothing is pending it returns an empty sequence, not an error. -/
theorem applyAllMigrations_spec (execUp : String → Bool) (entries applied : List String)
    (hsucc : ∀ f ∈ pendingMigrations entries applied, execUp f = true) :
    applyAllMigrations execUp entries applied = .ok (pendingMigrations entries applied) ∧
    (∀ f, f ∈ pendingMigrations entries applied ↔
      (f ∈ listMigrations entries ∧ f ∉ applied)) ∧
    List.Sorted keyLE (pendingMigrations entries applied) ∧
    (pendingMigrations entries applied = [] →
      applyAllMigrations execUp entries applied = .ok []) := by
  refine ⟨?_, ?_, ?_, ?_⟩
  · simpa [applyAllMigrations] using
      runBatch_ok_of_all_success execUp (pendingMigrations entries applied) [] hsucc
  · intro f
    simp [pendingMigrations, List.mem_filter]
  · exact (sorted_listMigrations entries).filter _
  · intro h
    rw [applyAllMigrations, h]
    rfl

/-- Witness for C1 at a concrete directory: with `002_b.js` already
applied, the pending files `001_a.js` and `003_c.js` are applied in
ascending key order. -/
theorem applyAllMigrations_spec_witness :
    applyAllMigrations (fun _ => true) ["002_b.js", "001_a.js", "003_c.js"] ["002_b.js"] =
      .ok (pendingMigrations ["002_b.js", "001_a.js", "003_c.js"] ["002_b.js"]) ∧
    pendingMigrations ["002_b.js", "001_a.js", "003_c.js"] ["002_b.js"] =
      ["001_a.js", "003_c.js"] :=
  ⟨(applyAllMigrations_spec (fun _ => true) ["002_b.js", "001_a.js", "003_c.js"]
      ["002_b.js"] (fun _ _ => rfl)).1,
   by decide⟩

/-- C9: when the `appliedMigrations` argument of the
`apply_all_migrations` or `revert_to_migration` tool is omitted, the
handler substitutes the empty list, so an omitted applied set behaves
identically to an explicitly empty one: every listed migration is pending
for apply-all and nothing is revertible for revert-to-target. -/
theorem omitted_applied_set_defaults_to_empty (execUp execDown : String → Bool)
    (entries : List String) (target : String) :
    handleApplyAllMigrations execUp entries { appliedMigrations := none } =
      handleApplyAllMigrations execUp entries { appliedMigrations := some [] } ∧
    handleRevertToMigration execDown entries
        { targetMigration := target, appliedMigrations := none } =
      handleRevertToMigration execDown entries
        { targetMigration := target, appliedMigrations := some [] } ∧
    pendingMigrations entries [] = listMigrations entries ∧
    revertCandidates entries [] = [] := by
  refine ⟨rfl, rfl, ?_, rfl⟩
  simp [pendingMigrations]

/-- C10: the registered tool callback catches every error thrown during
dispatch and returns the formatted error result instead of letting the
exception propagate out of the request handler. -/
theorem toolCallback_catches_errors {α : Type}
    (dispatch : String → α → Except McpError ToolResult)
    (toolName : String) (param : α) (e : McpError)
    (h : dispatch toolName param = .error e) :
    toolCallback dispatch toolName param = formatError e := by
  simp [toolCallback, h]

/-- Witness for C10: a dispatch that throws yields the formatted error. -/
theorem toolCallback_catches_errors_witness :
    toolCallback (fun _ (_ : Nat) => Except.error (.genericError "backend unavailable"))
      "apply_migration" 0 = formatError (.genericError "backend unavailable") :=
  toolCallback_catches_errors (fun _ _ => Except.error (.genericError "backend unavailable"))
    "apply_migration" 0 (.genericError "backend unavailable") rfl

/-- C5: a collection definition lacking a truthy `name` or `id`, a field
definition lacking a truthy `name` or `type`, or an empty
`collectionNameOrId` makes the corresponding migration generator handler
raise an invalid-argument error synchronously, with no storage effect: in
particular no migration file is written. -/
theorem create_migration_validation (a : CreateCollectionMigrationArgs)
    (b : AddFieldMigrationArgs) (cd : CollectionDefinition)
    (ha : a.collectionDefinition = some cd)
    (hcd : jsTruthy cd.name = false ∨ jsTruthy cd.id = false)
    (hb : b.collectionNameOrId = "" ∨
      ∃ fd, b.fieldDefinition = some fd ∧
        (jsTruthy fd.name = false ∨ jsTruthy fd.type = false)) :
    ((handleCreateCollectionMigration a).1 = .error (invalidParamsError
        "collectionDefinition must include name and id properties.") ∧
      (handleCreateCollectionMigration a).2 = []) ∧
    ((∃ m, (handleAddFieldMigration b).1 = .error (invalidParamsError m)) ∧
      (handleAddFieldMigration b).2 = []) := by
  have hcond : (!(jsTruthy cd.name) || !(jsTruthy cd.id)) = true := by
    rcases hcd with h | h <;> simp [h]
  refine ⟨⟨?_, ?_⟩, ?_⟩
  · simp [handleCreateCollectionMigration, ha, hcond]
  · simp [handleCreateCollectionMigration, ha, hcond]
  · rcases hb with hemp | ⟨fd, hfd, hbad⟩
    · refine ⟨⟨"Missing required argument: collectionNameOrId", ?_⟩, ?_⟩ <;>
        simp [handleAddFieldMigration, hemp]
    · have hcond2 : (!(jsTruthy fd.name) || !(jsTruthy fd.type)) = true := by
        rcases hbad with h | h <;> simp [h]
      by_cases hno : b.collectionNameOrId = ""
      · refine ⟨⟨"Missing required argument: collectionNameOrId", ?_⟩, ?_⟩ <;>
          simp [handleAddFieldMigration, hno]
      · refine ⟨⟨"fieldDefinition must include name and type properties.", ?_⟩, ?_⟩ <;>
          simp [handleAddFieldMigration, hno, hfd, hcond2]

/-- Witness for C5: `create_collection_migration` with a definition
missing `id`, and `add_field_migration` with a field missing `type`, both
fail with no write effect. -/
theorem create_migration_validation_witness :
    ((handleCreateCollectionMigration
        { description := none,
          collectionDefinition := some { name := some "posts", id := none, rest := "" } }).1 =
      .error (invalidParamsError
        "collectionDefinition must include name and id properties.") ∧
      (handleCreateCollectionMigration
        { description := none,
          collectionDefinition := some { name := some "posts", id := none, rest := "" } }).2 = []) ∧
    ((∃ m, (handleAddFieldMigration
        { collectionNameOrId := "posts",
          fieldDefinition := some { name := some "email", type := none, rest := "" },
          description := none }).1 = .error (invalidParamsError m)) ∧
      (handleAddFieldMigration
        { collectionNameOrId := "posts",
          fieldDefinition := some { name := some "email", type := none, rest := "" },
          description := none }).2 = []) :=
  create_migration_validation
    { description := none,
      collectionDefinition := some { name := some "posts", id := none, rest := "" } }
    { collectionNameOrId := "posts",
      fieldDefinition := some { name := some "email", type := none, rest := "" },
      description := none }
    { name := some "posts", id := none, rest := "" }
    rfl (Or.inr rfl)
    (Or.inr ⟨{ name := some "email", type := none, rest := "" }, rfl, Or.inr rfl⟩)

/-- C6: for every file name absent from the active migration directory,
`applyMigration` and `revertMigration` fail with `NotFoundError`; the
calling handler of the exposed operation observes that failure (and
re-wraps its message). -/
theorem applyMigration_notFound (execUp execDown : String → Bool)
    (entries : List String) (fileName : String)
    (h : fileName ∉ entries) :
    applyMigration execUp entries fileName = .error (.notFoundError fileName) ∧
    revertMigration execDown entries fileName = .error (.notFoundError fileName) ∧
    (fileName ≠ "" →
      handleApplyMigration execUp entries { migrationFile := fileName } =
        .error (.genericError ("Failed to apply migration: " ++
          (MigrationError.notFoundError fileName).message)) ∧
      handleRevertMigration execDown entries { migrationFile := fileName } =
        .error (.genericError ("Failed to revert migration: " ++
          (MigrationError.notFoundError fileName).message))) := by
  refine ⟨?_, ?_, ?_⟩
  · simp [applyMigration, h]
  · simp [revertMigration, h]
  · intro hne
    constructor
    · simp [handleApplyMigration, hne, applyMigration, h]
    · simp [handleRevertMigration, hne, revertMigration, h]

/-- Witness for C6: a nonexistent file name fails with not-found through
both lifecycle operations and both handlers. -/
theorem applyMigration_notFound_witness :
    applyMigration (fun _ => true) ["001_a.js"] "nonexistent.js" =
      .error (.notFoundError "nonexistent.js") ∧
    revertMigration (fun _ => true) ["001_a.js"] "nonexistent.js" =
      .error (.notFoundError "nonexistent.js") ∧
    ("nonexistent.js" ≠ "" →
      handleApplyMigration (fun _ => true) ["001_a.js"] { migrationFile := "nonexistent.js" } =
        .error (.genericError ("Failed to apply migration: " ++
          (MigrationError.notFoundError "nonexistent.js").message)) ∧
      handleRevertMigration (fun _ => true) ["001_a.js"] { migrationFile := "nonexistent.js" } =
        .error (.genericError ("Failed to revert migration: " ++
          (MigrationError.notFoundError "nonexistent.js").message))) :=
  applyMigration_notFound (fun _ => true) (fun _ => true) ["001_a.js"] "nonexistent.js"
    (by decide)

/-- The ensure-exists storage step is idempotent. -/
theorem ensureDirectoryExists_idem (dirs : List String) (d : String) :
    ensureDirectoryExists (ensureDirectoryExists dirs d) d = ensureDirectoryExists dirs d := by
  by_cases h : d ∈ dirs
  · simp [ensureDirectoryExists, h]
  · simp [ensureDirectoryExists, h]

/-- C8: `setMigrationsDirectory` with a custom path stores it normalized
to absolute as the active directory; without one it resets to the default
`<cwd>/pb_migrations`; repeated calls with the same path are idempotent
beyond ensuring the directory exists; and under multiple calls the last
write wins. -/
theorem setMigrationsDirectory_spec (cwd p : String) (customPath : Option String)
    (s : DirectoryState) (habs : isAbsolutePath cwd = true) :
    (setMigrationsDirectory cwd (some p) s).1 = normalizeToAbsolute cwd p ∧
    (setMigrationsDirectory cwd (some p) s).2.activeDir = normalizeToAbsolute cwd p ∧
    isAbsolutePath (normalizeToAbsolute cwd p) = true ∧
    (setMigrationsDirectory cwd none s).2.activeDir = defaultMigrationsDir cwd ∧
    setMigrationsDirectory cwd customPath ((setMigrationsDirectory cwd customPath s).2) =
      setMigrationsDirectory cwd customPath s ∧
    (∀ (c₁ c₂ : Option String) (t : DirectoryState),
      (setMigrationsDirectory cwd c₂ ((setMigrationsDirectory cwd c₁ t).2)).2.activeDir =
        (setMigrationsDirectory cwd c₂ t).2.activeDir) := by
  refine ⟨rfl, rfl, ?_, rfl, ?_, ?_⟩
  · rw [normalizeToAbsolute]
    by_cases hp : isAbsolutePath p = true
    · rw [if_pos hp]
      exact hp
    · rw [if_neg hp]
      simp only [isAbsolutePath] at habs ⊢
      rw [String.data_append, String.data_append]
      cases hd : cwd.data with
      | nil => rw [hd] at habs; simp at habs
      | cons c cs =>
        rw [hd] at habs
        simpa using habs
  · cases customPath <;>
      simp [setMigrationsDirectory, ensureDirectoryExists_idem]
  · intro c₁ c₂ t
    cases c₂ <;> simp [setMigrationsDirectory]

/-- Witness for C8 at a concrete working directory and relative custom
path. -/
theorem setMigrationsDirectory_spec_witness :
    (setMigrationsDirectory "/srv/app" (some "migrations")
        { activeDir := "/srv/app/pb_migrations", existingDirs := [] }).1 =
      normalizeToAbsolute "/srv/app" "migrations" ∧
    (setMigrationsDirectory "/srv/app" (some "migrations")
        { activeDir := "/srv/app/pb_migrations", existingDirs := [] }).2.activeDir =
      normalizeToAbsolute "/srv/app" "migrations" ∧
    isAbsolutePath (normalizeToAbsolute "/srv/app" "migrations") = true ∧
    (setMigrationsDirectory "/srv/app" none
        { activeDir := "/srv/app/pb_migrations", existingDirs := [] }).2.activeDir =
      defaultMigrationsDir "/srv/app" ∧
    setMigrationsDirectory "/srv/app" (some "migrations")
        ((setMigrationsDirectory "/srv/app" (some "migrations")
          { activeDir := "/srv/app/pb_migrations", existingDirs := [] }).2) =
      setMigrationsDirectory "/srv/app" (some "migrations")
        { activeDir := "/srv/app/pb_migrations", existingDirs := [] } ∧
    (∀ (c₁ c₂ : Option String) (t : DirectoryState),
      (setMigrationsDirectory "/srv/app" c₂
          ((setMigrationsDirectory "/srv/app" c₁ t).2)).2.activeDir =
        (setMigrationsDirectory "/srv/app" c₂ t).2.activeDir) :=
  setMigrationsDirectory_spec "/srv/app" "migrations" (some "migrations")
    { activeDir := "/srv/app/pb_migrations", existingDirs := [] } (by decide)

/-- The revert candidates are sorted descending by embedded ordering key. -/
theorem sorted_revertCandidates (entries applied : List String) :
    List.Sorted keyGE (revertCandidates entries applied) :=
  List.sorted_insertionSort keyGE _

/-- The revert candidates are a permutation of the applied names present
in the directory listing. -/
theorem perm_revertCandidates (entries applied : List String) :
    (revertCandidates entries applied).Perm
      (applied.filter (fun f => (listMigrations entries).contains f)) :=
  List.perm_insertionSort keyGE _

/-- Membership in the revert candidates: an applied name that exists in
the directory listing. -/
theorem mem_revertCandidates (entries applied : List String) (f : String) :
    f ∈ revertCandidates entries applied ↔
      (f ∈ applied ∧ f ∈ listMigrations entries) := by
  rw [(perm_revertCandidates entries applied).mem_iff]
  simp [List.mem_filter]

/-- A list sorted ascending by ordering key with pairwise-distinct keys is
strictly ascending. -/
theorem pairwise_keyLT_of_sorted_le {l : List String}
    (hs : List.Sorted keyLE l) (hn : (l.map orderingKey).Nodup) :
    List.Pairwise keyLT l := by
  have hne : List.Pairwise (fun a b => orderingKey a ≠ orderingKey b) l :=
    List.pairwise_map.mp hn
  exact (List.Pairwise.and hs hne).imp (fun h => lt_of_le_of_ne h.1 h.2)

/-- A list sorted descending by ordering key with pairwise-distinct keys
is strictly descending. -/
theorem pairwise_keyGT_of_sorted_ge {l : List String}
    (hs : List.Sorted keyGE l) (hn : (l.map orderingKey).Nodup) :
    List.Pairwise (fun a b => keyLT b a) l := by
  have hne : List.Pairwise (fun a b => orderingKey a ≠ orderingKey b) l :=
    List.pairwise_map.mp hn
  exact (List.Pairwise.and hs hne).imp (fun h => lt_of_le_of_ne h.1 (Ne.symm h.2))

/-- C3: with an empty target, `revertToMigration` reverts every member of
the caller-supplied applied set that exists in the directory, in
descending ordering-key order (strictly descending when keys are
distinct), returning their names in the order reverted. -/
theorem revertToMigration_empty_target_spec (execDown : String → Bool)
    (entries applied : List String)
    (hsucc : ∀ f ∈ revertCandidates entries applied, execDown f = true) :
    revertToMigration execDown "" entries applied =
      .ok (revertCandidates entries applied) ∧
    (∀ f, f ∈ revertCandidates entries applied ↔
      (f ∈ applied ∧ f ∈ listMigrations entries)) ∧
    List.Sorted keyGE (revertCandidates entries applied) ∧
    (((applied.filter (fun f => (listMigrations entries).contains f)).map
        orderingKey).Nodup →
      List.Pairwise (fun a b => orderingKey b < orderingKey a)
        (revertCandidates entries applied)) := by
  refine ⟨?_, mem_revertCandidates entries applied, sorted_revertCandidates entries applied, ?_⟩
  · have hrt : revertTargets "" entries applied = revertCandidates entries applied := by
      simp [revertTargets]
    simpa [revertToMigration, hrt] using
      runBatch_ok_of_all_success execDown (revertCandidates entries applied) [] hsucc
  · intro hn
    have hn' : ((revertCandidates entries applied).map orderingKey).Nodup :=
      (((perm_revertCandidates entries applied).map orderingKey).nodup_iff).mpr hn
    exact pairwise_keyGT_of_sorted_ge (sorted_revertCandidates entries applied) hn'

/-- Witness for C3: reverting to the empty target with three applied
migrations reverts all three, most recent first. -/
theorem revertToMigration_empty_target_spec_witness :
    revertToMigration (fun _ => true) "" ["001_m1.js", "002_m2.js", "003_m3.js"]
        ["001_m1.js", "002_m2.js", "003_m3.js"] =
      .ok (revertCandidates ["001_m1.js", "002_m2.js", "003_m3.js"]
        ["001_m1.js", "002_m2.js", "003_m3.js"]) ∧
    revertCandidates ["001_m1.js", "002_m2.js", "003_m3.js"]
        ["001_m1.js", "002_m2.js", "003_m3.js"] =
      ["003_m3.js", "002_m2.js", "001_m1.js"] :=
  ⟨(revertToMigration_empty_target_spec (fun _ => true)
      ["001_m1.js", "002_m2.js", "003_m3.js"]
      ["001_m1.js", "002_m2.js", "003_m3.js"] (fun _ _ => rfl)).1,
   by decide⟩

/-- C2: with a non-empty target, `revertToMigration` reverts exactly the
candidates (applied names existing in the directory) whose ordering key is
strictly greater than the target's, in descending ordering-key order
(strictly descending when keys are distinct), never reverting the target
itself; it fails with `NotFoundError` when the target is not in the
directory listing. -/
theorem revertToMigration_target_spec (execDown : String → Bool) (target : String)
    (entries applied : List String) (hne : target ≠ "")
    (hsucc : ∀ f ∈ revertTargets target entries applied, execDown f = true) :
    (target ∉ listMigrations entries →
      revertToMigration execDown target entries applied =
        .error (.notFoundError target)) ∧
    (target ∈ listMigrations entries →
      revertToMigration execDown target entries applied =
        .ok (revertTargets target entries applied)) ∧
    (∀ f, f ∈ revertTargets target entries applied ↔
      (f ∈ applied ∧ f ∈ listMigrations entries ∧
        orderingKey target < orderingKey f)) ∧
    target ∉ revertTargets target entries applied ∧
    List.Sorted keyGE (revertTargets target entries applied) ∧
    (((applied.filter (fun f => (listMigrations entries).contains f)).map
        orderingKey).Nodup →
      List.Pairwise (fun a b => orderingKey b < orderingKey a)
        (revertTargets target entries applied)) := by
  have hrt : revertTargets target entries applied =
      (revertCandidates entries applied).filter
        (fun f => decide (orderingKey target < orderingKey f)) := by
    simp [revertTargets, hne]
  have hmem : ∀ f, f ∈ revertTargets target entries applied ↔
      (f ∈ applied ∧ f ∈ listMigrations entries ∧
        orderingKey target < orderingKey f) := by
    intro f
    rw [hrt]
    simp [List.mem_filter, mem_revertCandidates, and_assoc]
  refine ⟨?_, ?_, hmem, ?_, ?_, ?_⟩
  · intro habs
    simp [revertToMigration, hne, habs]
  · intro hin
    have := runBatch_ok_of_all_success execDown (revertTargets target entries applied) [] hsucc
    simpa [revertToMigration, hne, hin] using this
  · intro habs
    exact absurd ((hmem target).mp habs).2.2 (lt_irrefl _)
  · rw [hrt]
    exact (sorted_revertCandidates entries applied).filter _
  · intro hn
    have hn' : ((revertCandidates entries applied).map orderingKey).Nodup :=
      (((perm_revertCandidates entries applied).map orderingKey).nodup_iff).mpr hn
    have hp := pairwise_keyGT_of_sorted_ge (sorted_revertCandidates entries applied) hn'
    rw [hrt]
    exact List.Pairwise.sublist (List.filter_sublist _) hp

/-- Witness for C2: reverting to `001_m1.js` with three applied
migrations reverts `003_m3.js` then `002_m2.js` and leaves the target
alone. -/
theorem revertToMigration_target_spec_witness :
    ("001_m1.js" ∈ listMigrations ["001_m1.js", "002_m2.js", "003_m3.js"] →
      revertToMigration (fun _ => true) "001_m1.js"
          ["001_m1.js", "002_m2.js", "003_m3.js"]
          ["001_m1.js", "002_m2.js", "003_m3.js"] =
        .ok (revertTargets "001_m1.js" ["001_m1.js", "002_m2.js", "003_m3.js"]
          ["001_m1.js", "002_m2.js", "003_m3.js"])) ∧
    revertTargets "001_m1.js" ["001_m1.js", "002_m2.js", "003_m3.js"]
        ["001_m1.js", "002_m2.js", "003_m3.js"] =
      ["003_m3.js", "002_m2.js"] ∧
    revertToMigration (fun _ => true) "zzz.js"
        ["001_m1.js", "002_m2.js", "003_m3.js"]
        ["001_m1.js", "002_m2.js", "003_m3.js"] =
      .error (.notFoundError "zzz.js") :=
  ⟨(revertToMigration_target_spec (fun _ => true) "001_m1.js"
      ["001_m1.js", "002_m2.js", "003_m3.js"]
      ["001_m1.js", "002_m2.js", "003_m3.js"] (by decide) (by decide)).2.1,
   by decide,
   (revertToMigration_target_spec (fun _ => true) "zzz.js"
      ["001_m1.js", "002_m2.js", "003_m3.js"]
      ["001_m1.js", "002_m2.js", "003_m3.js"] (by decide) (by decide)).1
     (by decide)⟩

/-- Two sorted-by-key permutations of the same entries with distinct keys
are equal: the listing does not depend on enumeration order. -/
theorem listMigrations_perm_eq {e1 e2 : List String} (hp : e2.Perm e1)
    (hn : ((e1.filter hasMigrationExt).map orderingKey).Nodup) :
    listMigrations e2 = listMigrations e1 := by
  have hpf : (e2.filter hasMigrationExt).Perm (e1.filter hasMigrationExt) :=
    hp.filter _
  have hperm : (listMigrations e2).Perm (listMigrations e1) :=
    (perm_listMigrations e2).trans (hpf.trans (perm_listMigrations e1).symm)
  have hn1 : ((listMigrations e1).map orderingKey).Nodup :=
    (((perm_listMigrations e1).map orderingKey).nodup_iff).mpr hn
  have hn2 : ((listMigrations e2).map orderingKey).Nodup :=
    ((hperm.map orderingKey).nodup_iff).mpr hn1
  exact List.eq_of_perm_of_sorted hperm
    (pairwise_keyLT_of_sorted_le (sorted_listMigrations e2) hn2)
    (pairwise_keyLT_of_sorted_le (sorted_listMigrations e1) hn1)

/-- C7: `listMigrations` returns the file names of the active directory's
migration files sorted ascending by embedded ordering key — the same
result for any file-system enumeration order — and returns an empty
sequence, not an error, on an empty directory. -/
theorem listMigrations_spec (entries entries2 : List String)
    (hperm : entries2.Perm entries)
    (hnodup : ((entries.filter hasMigrationExt).map orderingKey).Nodup) :
    List.Sorted keyLE (listMigrations entries) ∧
    (listMigrations entries).Perm (entries.filter hasMigrationExt) ∧
    listMigrations entries2 = listMigrations entries ∧
    listMigrations [] = [] :=
  ⟨sorted_listMigrations entries, perm_listMigrations entries,
   listMigrations_perm_eq hperm hnodup, rfl⟩

/-- Witness for C7: a scrambled enumeration of three migration files
lists identically to the straight one, in ascending key order. -/
theorem listMigrations_spec_witness :
    List.Sorted keyLE (listMigrations ["002_b.js", "003_c.js", "001_a.js"]) ∧
    (listMigrations ["002_b.js", "003_c.js", "001_a.js"]).Perm
      (["002_b.js", "003_c.js", "001_a.js"].filter hasMigrationExt) ∧
    listMigrations ["003_c.js", "001_a.js", "002_b.js"] =
      listMigrations ["002_b.js", "003_c.js", "001_a.js"] ∧
    listMigrations [] = [] :=
  listMigrations_spec ["002_b.js", "003_c.js", "001_a.js"]
    ["003_c.js", "001_a.js", "002_b.js"] (by decide) (by decide)

/-! Lexicographic facts about fixed-width decimal keys, for the Naming
Engine claim. -/

/-- `String` strict comparison is lexicographic on the underlying
character lists. -/
theorem string_lt_iff_lex (s t : String) :
    s < t ↔ List.Lex (· < ·) s.data t.data :=
  (string_lt_iff_lexLtB s t).trans (lexLtB_iff_lex s.data t.data)

/-- Decimal digit characters compare like the digits they render. -/
theorem digitChar_lt_iff {d1 d2 : Nat} (h1 : d1 < 10) (h2 : d2 < 10) :
    Nat.digitChar d1 < Nat.digitChar d2 ↔ d1 < d2 := by
  interval_cases d1 <;> interval_cases d2 <;> decide

/-- A fixed-width digit rendering has that width. -/
theorem natToDigits_length : ∀ (w n : Nat), (natToDigits w n).length = w
  | 0, _ => rfl
  | w + 1, n => by simp [natToDigits, natToDigits_length w]

/-- Fixed-width decimal renderings compare lexicographically like the
numbers they render. -/
theorem natToDigits_lex_lt : ∀ (w n m : Nat), n < 10 ^ w → m < 10 ^ w → n < m →
    List.Lex (· < ·) (natToDigits w n) (natToDigits w m)
  | 0, n, m, hn, hm, hnm => by
    simp [pow_zero] at hn hm
    exact absurd hnm (by omega)
  | w + 1, n, m, hn, hm, hnm => by
    have hpow : (0 : Nat) < 10 ^ w := pow_pos (by norm_num) w
    have hdn : n / 10 ^ w < 10 := Nat.div_lt_of_lt_mul (by rw [← pow_succ]; exact hn)
    have hdm : m / 10 ^ w < 10 := Nat.div_lt_of_lt_mul (by rw [← pow_succ]; exact hm)
    simp only [natToDigits]
    rcases lt_trichotomy (n / 10 ^ w) (m / 10 ^ w) with hlt | heq | hgt
    · apply List.Lex.rel
      rw [Nat.mod_eq_of_lt hdn, Nat.mod_eq_of_lt hdm]
      exact (digitChar_lt_iff hdn hdm).mpr hlt
    · rw [heq]
      apply List.Lex.cons
      apply natToDigits_lex_lt w
      · exact Nat.mod_lt _ hpow
      · exact Nat.mod_lt _ hpow
      · have h1 := Nat.div_add_mod n (10 ^ w)
        have h2 := Nat.div_add_mod m (10 ^ w)
        rw [← heq] at h2
        omega
    · exact absurd (Nat.div_le_div_right (Nat.le_of_lt hnm)) (Nat.not_le_of_lt hgt)

/-- A lexicographic comparison of equal-length lists survives appending
arbitrary tails. -/
theorem lex_append_of_lex {α : Type} {r : α → α → Prop} :
    ∀ {l1 l2 : List α}, List.Lex r l1 l2 → l1.length = l2.length →
      ∀ (t1 t2 : List α), List.Lex r (l1 ++ t1) (l2 ++ t2) := by
  intro l1 l2 h
  induction h with
  | nil =>
    intro hlen
    simp at hlen
  | cons h ih =>
    intro hlen t1 t2
    simp only [List.cons_append]
    exact List.Lex.cons (ih (by simpa using hlen) t1 t2)
  | rel hab =>
    intro _ t1 t2
    simp only [List.cons_append]
    exact List.Lex.rel hab

/-- The naming engine's state after issuing a key remembers that key. -/
theorem nextOrderingKey_state (now : Nat) (s : NamingState) :
    (nextOrderingKey now s).2.lastKey = (nextOrderingKey now s).1 := by
  rw [nextOrderingKey]
  split <;> rfl

/-- The naming engine always issues a key strictly above the remembered
one. -/
theorem nextOrderingKey_gt (now : Nat) (s : NamingState) :
    s.lastKey < (nextOrderingKey now s).1 := by
  rw [nextOrderingKey]
  split
  · simp
  · simp
    omega

/-- C4: two successive migration creations in the same process at times
`t1 ≤ t2` (including `t1 = t2`) receive distinct ordering keys with the
first strictly below the second, numerically and lexicographically as
rendered strings, so the lexicographic order of the resulting file names
matches creation order. The bound keeps the second key inside the
rendered digit width (epoch milliseconds stay below `10 ^ 13` until the
year 2286). -/
theorem namingEngine_monotone (t1 t2 : Nat) (s0 s1 : NamingState) (k1 k2 : Nat)
    (slug1 slug2 : String)
    (h12 : t1 ≤ t2)
    (h1 : nextOrderingKey t1 s0 = (k1, s1))
    (h2 : (nextOrderingKey t2 s1).1 = k2)
    (hbound : k2 < 10 ^ keyWidth) :
    k1 < k2 ∧
    orderingKeyText k1 ≠ orderingKeyText k2 ∧
    orderingKeyText k1 < orderingKeyText k2 ∧
    migrationFileName k1 slug1 < migrationFileName k2 slug2 := by
  have hk1 : (nextOrderingKey t1 s0).1 = k1 := by rw [h1]
  have hs1 : (nextOrderingKey t1 s0).2 = s1 := by rw [h1]
  have hs1k : s1.lastKey = k1 := by
    rw [← hs1, nextOrderingKey_state, hk1]
  have hkk : k1 < k2 := by
    rw [← h2, ← hs1k]
    exact nextOrderingKey_gt t2 s1
  have hb1 : k1 < 10 ^ keyWidth := lt_trans hkk hbound
  have hlex : List.Lex (· < ·) (natToDigits keyWidth k1) (natToDigits keyWidth k2) :=
    natToDigits_lex_lt keyWidth k1 k2 hb1 hbound hkk
  have htext : orderingKeyText k1 < orderingKeyText k2 := by
    rw [string_lt_iff_lex]
    exact hlex
  refine ⟨hkk, ne_of_lt htext, htext, ?_⟩
  rw [string_lt_iff_lex]
  have hd1 : (migrationFileName k1 slug1).data =
      natToDigits keyWidth k1 ++ ("_".data ++ (slug1.data ++ migrationExt.data)) := by
    simp [migrationFileName, orderingKeyText, String.data_append, List.append_assoc]
  have hd2 : (migrationFileName k2 slug2).data =
      natToDigits keyWidth k2 ++ ("_".data ++ (slug2.data ++ migrationExt.data)) := by
    simp [migrationFileName, orderingKeyText, String.data_append, List.append_assoc]
  rw [hd1, hd2]
  exact lex_append_of_lex hlex
    (by rw [natToDigits_length, natToDigits_length]) _ _

/-- Witness for C4: two creations in the same millisecond get distinct,
strictly increasing keys and file names. -/
theorem namingEngine_monotone_witness :
    (1700000000000 : Nat) ≤ 1700000000000 ∧
    nextOrderingKey 1700000000000 { lastKey := 0 } =
      (1700000000000, { lastKey := 1700000000000 }) ∧
    (nextOrderingKey 1700000000000 { lastKey := 1700000000000 }).1 = 1700000000001 ∧
    (1700000000001 : Nat) < 10 ^ keyWidth ∧
    (1700000000000 < 1700000000001 ∧
      orderingKeyText 1700000000000 ≠ orderingKeyText 1700000000001 ∧
      orderingKeyText 1700000000000 < orderingKeyText 1700000000001 ∧
      migrationFileName 1700000000000 "add_users" <
        migrationFileName 1700000000001 "add_posts") :=
  ⟨le_refl _, by rw [nextOrderingKey]; simp, by rw [nextOrderingKey]; simp, by norm_num [keyWidth],
   namingEngine_monotone 1700000000000 1700000000000 { lastKey := 0 }
     { lastKey := 1700000000000 } 1700000000000 1700000000001 "add_users" "add_posts"
     (le_refl _) (by rw [nextOrderingKey]; simp) (by rw [nextOrderingKey]; simp)
     (by norm_num [keyWidth])⟩

end PocketbaseMcp
